import Mathlib

/-!
Verification of the biggest-loser-leaderboard CSV ingestion and data pipeline
(`src/app.js`): CSV parsing (`parseCSV`), the leaderboard projection and refresh
(`fetchLeaderboardData`), the config projection (`fetchConfigData`), movement
computation (`getMovement`), and the fetch-address construction (cache busting).

Modelling conventions:
- JavaScript numbers produced by `parseInt` are modelled by `JsInt`
  (`nan` for NaN, `val n` for an integer result).
- A JavaScript object used as a CSV row is modelled as an association list
  in insertion order (`Row`); assignment to an existing key updates it in
  place, assignment to a fresh key appends it.  (JavaScript would move
  integer-like keys first; no claim involves integer-like header names, so
  insertion order is faithful here.)
- `undefined` string reads are conflated with the empty string: every use in
  the source (truthiness tests, `parseInt`, `=== 'TRUE'`, `|| ''`) treats the
  two identically.
- String primitives (`trim`, `split`, the character scan) are re-implemented
  structurally over `List Char` so that all definitions evaluate by `decide`.
- Asynchronous fetching is modelled by passing the fetch outcome explicitly:
  `Except Unit String` (`.error` = the promise rejected / a step threw,
  `.ok body` = the response text).  The module-level mutable state
  (`CONTESTANTS`, `CONFIG`) is passed and returned explicitly.
-/

namespace BiggestLoser

/-- Result of JavaScript `parseInt`: either NaN or an integer. -/
inductive JsInt where
  | nan : JsInt
  | val : Int → JsInt
deriving DecidableEq

/-- Whether a `JsInt` is an actual integer (not NaN). -/
def JsInt.isVal : JsInt → Bool
  | JsInt.nan => false
  | JsInt.val _ => true

/-- ASCII whitespace used by both `String.prototype.trim` and `parseInt`
(space, tab, CR, LF — the subset occurring in this pipeline). -/
def isJsWs (c : Char) : Bool :=
  c == ' ' || c == '\t' || c == '\r' || c == '\n'

/-- JavaScript `s.trim()` on a character list: drop whitespace at both ends. -/
def trimChars (cs : List Char) : List Char :=
  ((cs.dropWhile isJsWs).reverse.dropWhile isJsWs).reverse

/-- JavaScript `s.trim()` returning a string. -/
def trimString (cs : List Char) : String :=
  String.mk (trimChars cs)

/-- JavaScript `s.split(sep)` for a single-character separator:
splits on every occurrence, `"".split` gives `[""]`. -/
def splitChar (sep : Char) : List Char → List (List Char)
  | [] => [[]]
  | c :: rest =>
    match splitChar sep rest with
    | [] => [[]]
    | g :: gs => if c == sep then [] :: g :: gs else (c :: g) :: gs

/-- Value of a decimal digit string (digits already validated). -/
def digitsToNat (cs : List Char) : Nat :=
  cs.foldl (fun n c => n * 10 + (c.toNat - 48)) 0

/-- JavaScript `parseInt(s, 10)`: skip leading whitespace, optional sign,
take the maximal decimal-digit prefix; NaN when no digit is found. -/
def parseIntJs (s : String) : JsInt :=
  let cs := s.toList.dropWhile isJsWs
  let signed : Bool × List Char :=
    match cs with
    | '-' :: rest => (true, rest)
    | '+' :: rest => (false, rest)
    | _ => (false, cs)
  let digits := signed.2.takeWhile (fun c => c.isDigit)
  if digits.isEmpty then JsInt.nan
  else JsInt.val (if signed.1 then -(digitsToNat digits : Int) else (digitsToNat digits : Int))

/-- JavaScript `a || b` on `parseInt` results: NaN and 0 (and -0) are falsy. -/
def jsOrInt (a b : JsInt) : JsInt :=
  match a with
  | JsInt.nan => b
  | JsInt.val n => if n = 0 then b else JsInt.val n

/-- A CSV row object: association list of header name to cell value, in
insertion order. -/
abbrev Row := List (String × String)

/-- JavaScript property assignment `row[k] = v`: update in place if the key
exists, else append. -/
def jsSet (row : Row) (k v : String) : Row :=
  match row with
  | [] => [(k, v)]
  | (k1, v1) :: rest => if k1 = k then (k, v) :: rest else (k1, v1) :: jsSet rest k v

/-- JavaScript property read `row[k]`: `none` models `undefined`. -/
def jsGet (row : Row) (k : String) : Option String :=
  (row.find? (fun p => p.1 == k)).map Prod.snd

/-- Property read conflating `undefined` with the empty string (see the
modelling conventions above). -/
def getStr (row : Row) (k : String) : String :=
  (jsGet row k).getD ""

/-- Keys of a row in insertion order. -/
def keysOf (row : Row) : List String :=
  row.map Prod.fst

/-- Header processing from `parseCSV` line 37:
`lines[0].split(',').map(h => h.trim().replace(/"/g, ''))`. -/
def parseHeaders (line : List Char) : List String :=
  (splitChar ',' line).map (fun h => String.mk ((trimChars h).filter (fun c => c != '"')))

/-- The quote-toggling field scanner from `parseCSV` lines 41-55: a `"`
toggles quoted mode (and is dropped), a `,` outside quotes ends the field
(trimmed), any other character is appended; the final buffer is pushed. -/
def splitCSVLine : List Char → List Char → Bool → List String
  | [], current, _ => [trimString current]
  | c :: rest, current, inQuotes =>
    if c == '"' then splitCSVLine rest current (!inQuotes)
    else if c == ',' && !inQuotes then trimString current :: splitCSVLine rest [] inQuotes
    else splitCSVLine rest (current ++ [c]) inQuotes

/-- Row construction from `parseCSV` lines 57-60:
`headers.forEach((header, i) => row[header] = values[i] || '')`. -/
def buildRowAux : Row → List String → List String → Row
  | row, [], _ => row
  | row, h :: hs, vs => buildRowAux (jsSet row h (vs.headD "")) hs vs.tail

/-- Build a row object by positionally zipping headers with values
(missing values become the empty string, extra values are dropped). -/
def buildRow (headers values : List String) : Row :=
  buildRowAux [] headers values

/-- `parseCSV` (src/app.js lines 33-63): trim, split into lines, bail out
below 2 lines, process the header line, scan each data line, build rows. -/
def parseCSV (csvText : String) : List Row :=
  if (splitChar '\n' (trimChars csvText.toList)).length < 2 then []
  else
    ((splitChar '\n' (trimChars csvText.toList)).drop 1).map (fun line =>
      buildRow (parseHeaders ((splitChar '\n' (trimChars csvText.toList)).headD []))
        (splitCSVLine line [] false))

/-- A contestant as projected by `fetchLeaderboardData` lines 74-79. -/
structure Contestant where
  codename : String
  currentRank : JsInt
  previousRank : JsInt
  shamed : Bool
deriving DecidableEq

/-- The filter predicate of `fetchLeaderboardData` line 73:
`row['Codename'] && row['Current Rank']` (string truthiness). -/
def keepRow (row : Row) : Bool :=
  !(getStr row "Codename").isEmpty && !(getStr row "Current Rank").isEmpty

/-- The per-row projection of `fetchLeaderboardData` lines 74-79. -/
def projectRow (row : Row) : Contestant :=
  { codename := getStr row "Codename"
    currentRank := parseIntJs (getStr row "Current Rank")
    previousRank := jsOrInt (parseIntJs (getStr row "Previous Rank"))
      (parseIntJs (getStr row "Current Rank"))
    shamed := getStr row "Shamed" == "TRUE" }

/-- The filter-and-map stage of `fetchLeaderboardData` lines 72-79. -/
def fetchLeaderboardProject (rows : List Row) : List Contestant :=
  (rows.filter keepRow).map projectRow

/-- The sort comparator of line 80, `a.currentRank - b.currentRank`, with the
ECMAScript rule that a NaN comparator result is treated as 0. -/
def cmpJs (a b : JsInt) : Int :=
  match a, b with
  | JsInt.val m, JsInt.val n => m - n
  | _, _ => 0

/-- Stable insertion of a contestant into an already-processed list under
`cmpJs`: the new element goes before the first element not strictly below it.
Together with `sortByRank` this models the (specified-stable) ECMAScript
`Array.prototype.sort` on a consistent comparator. -/
def insertC (x : Contestant) : List Contestant → List Contestant
  | [] => [x]
  | y :: ys =>
    if cmpJs y.currentRank x.currentRank < 0 then y :: insertC x ys
    else x :: y :: ys

/-- Stable sort by `cmpJs` on `currentRank` (line 80). -/
def sortByRank : List Contestant → List Contestant
  | [] => []
  | x :: xs => insertC x (sortByRank xs)

/-- `fetchLeaderboardData` (lines 65-87) as a state transition: given the
previous `CONTESTANTS` and the fetch outcome, return the new `CONTESTANTS`
and the function's return value.  On success the collection is replaced by
the sorted projection and returned; on failure (the `catch` branch) the
collection is untouched and `[]` is returned. -/
def fetchLeaderboardData (state : List Contestant) (fetched : Except Unit String) :
    List Contestant × List Contestant :=
  match fetched with
  | Except.error _ => (state, [])
  | Except.ok csvText =>
    let cs := sortByRank (fetchLeaderboardProject (parseCSV csvText))
    (cs, cs)

/-- The module-level runtime configuration `CONFIG` (lines 21-24):
`deadline` and `currentWeek` start as `null` (`none`). -/
structure RuntimeConfig where
  deadline : Option String
  currentWeek : Option JsInt
deriving DecidableEq

/-- Initial `CONFIG` value. -/
def initialConfig : RuntimeConfig :=
  { deadline := none, currentWeek := none }

/-- Initial `CONTESTANTS` value (line 27). -/
def initialContestants : List Contestant := []

/-- `Object.values(row)[0]` (line 97): the first value of the row object in
insertion order (`undefined` conflated with the empty string). -/
def configKey (row : Row) : String :=
  (row.map Prod.snd).getD 0 ""

/-- `Object.values(row)[1]` (line 98): the second value of the row object in
insertion order (`undefined` conflated with the empty string). -/
def configValue (row : Row) : String :=
  (row.map Prod.snd).getD 1 ""

/-- One iteration of the `data.forEach` loop in `fetchConfigData`
(lines 96-105). -/
def applyConfigRow (cfg : RuntimeConfig) (row : Row) : RuntimeConfig :=
  if configKey row = "deadline" then { cfg with deadline := some (configValue row) }
  else if configKey row = "current_week" then
    { cfg with currentWeek := some (parseIntJs (configValue row)) }
  else cfg

/-- `fetchConfigData` (lines 89-112) as a state transition on `CONFIG`:
returns the new `CONFIG` and the return value (always `CONFIG` itself,
both on success and in the `catch` branch). -/
def fetchConfigData (cfg : RuntimeConfig) (fetched : Except Unit String) :
    RuntimeConfig × RuntimeConfig :=
  match fetched with
  | Except.error _ => (cfg, cfg)
  | Except.ok csvText =>
    let c := (parseCSV csvText).foldl applyConfigRow cfg
    (c, c)

/-- Result of `getMovement` (lines 118-123); the source field `class`
(a CSS class) is named `cls` here: the spec direction "up" / "down" /
"same" corresponds to `"movement-up"` / `"movement-down"` /
`"movement-same"`. -/
structure Movement where
  symbol : String
  cls : String
deriving DecidableEq

/-- `getMovement` (lines 118-123); the local `diff = previousRank - currentRank`
is inlined. -/
def getMovement (currentRank previousRank : Int) : Movement :=
  if previousRank - currentRank > 0 then
    { symbol := "↑" ++ toString (previousRank - currentRank), cls := "movement-up" }
  else if previousRank - currentRank < 0 then
    { symbol := "↓" ++ toString (previousRank - currentRank).natAbs, cls := "movement-down" }
  else { symbol := "–", cls := "movement-same" }

/-- Unreserved characters of `encodeURIComponent` (kept verbatim):
alphanumerics and `- _ . ! ~ * ' ( )`. -/
def isUnreservedURIChar (c : Char) : Bool :=
  c.isAlphanum || c == '-' || c == '_' || c == '.' || c == '!' || c == '~' ||
    c == '*' || c.toNat == 39 || c == '(' || c == ')'

/-- Uppercase hexadecimal digit. -/
def hexDigit (n : Nat) : Char :=
  if n < 10 then Char.ofNat (48 + n) else Char.ofNat (55 + n)

/-- UTF-8 encoding of one character as a byte list. -/
def utf8Bytes (c : Char) : List Nat :=
  let n := c.toNat
  if n < 128 then [n]
  else if n < 2048 then [192 + n / 64, 128 + n % 64]
  else if n < 65536 then [224 + n / 4096, 128 + (n / 64) % 64, 128 + n % 64]
  else [240 + n / 262144, 128 + (n / 4096) % 64, 128 + (n / 64) % 64, 128 + n % 64]

/-- Percent-encoding of one byte. -/
def percentEncodeByte (b : Nat) : String :=
  String.mk ['%', hexDigit (b / 16), hexDigit (b % 16)]

/-- JavaScript `encodeURIComponent`. -/
def encodeURIComponent (s : String) : String :=
  String.join (s.toList.map (fun c =>
    if isUnreservedURIChar c then String.mk [c]
    else String.join ((utf8Bytes c).map percentEncodeByte)))

/-- `SHEETS_BASE_URL` (line 13). -/
def SHEETS_BASE_URL : String :=
  "https://docs.google.com/spreadsheets/d/1htoeLmi-aczeAOJpHjf3hFnT5L26kUaGHukXX6l920g/export?format=csv"

/-- `CORS_PROXY` (line 14). -/
def CORS_PROXY : String :=
  "https://api.codetabs.com/v1/proxy?quest="

/-- `CACHE_BUST` (line 16): a module-level constant computed once from
`Date.now()` at script-load time `loadTime`. -/
def CACHE_BUST (loadTime : Nat) : String :=
  "&_=" ++ toString loadTime

/-- `LEADERBOARD_CSV_URL` (line 17), as a function of the script-load time. -/
def LEADERBOARD_CSV_URL (loadTime : Nat) : String :=
  CORS_PROXY ++ encodeURIComponent (SHEETS_BASE_URL ++ "&gid=0" ++ CACHE_BUST loadTime)

/-- The address used by a leaderboard fetch issued at `callTime` in a page
loaded at `loadTime`: the constant `LEADERBOARD_CSV_URL`, which does not
depend on the call time (line 67 reads the module-level constant). -/
def leaderboardFetchAddress (loadTime _callTime : Nat) : String :=
  LEADERBOARD_CSV_URL loadTime

/-- Ordering on contestants by `currentRank`, as JavaScript `<=` would compare
the ranks: comparisons involving NaN are false. -/
def rankLeB (a b : Contestant) : Bool :=
  match a.currentRank, b.currentRank with
  | JsInt.val m, JsInt.val n => decide (m ≤ n)
  | _, _ => false

/-- The contestants of a list whose `currentRank` equals the integer `r`,
in order. -/
def filterRank (r : Int) (l : List Contestant) : List Contestant :=
  l.filter (fun c => decide (c.currentRank = JsInt.val r))

theorem rankLeB_val {a b : Contestant} {m n : Int} (ha : a.currentRank = JsInt.val m)
    (hb : b.currentRank = JsInt.val n) : rankLeB a b = decide (m ≤ n) := by
  rw [rankLeB, ha, hb]

theorem mem_insertC (x z : Contestant) :
    ∀ l : List Contestant, (z ∈ insertC x l ↔ z = x ∨ z ∈ l)
  | [] => by simp [insertC]
  | y :: ys => by
    by_cases h : cmpJs y.currentRank x.currentRank < 0
    · simp only [insertC, if_pos h, List.mem_cons, mem_insertC x z ys]
      tauto
    · simp only [insertC, if_neg h, List.mem_cons]

theorem insertC_pairwise (x : Contestant) (hx : x.currentRank.isVal = true) :
    ∀ l : List Contestant, (∀ c ∈ l, c.currentRank.isVal = true) →
      List.Pairwise (fun a b => rankLeB a b = true) l →
      List.Pairwise (fun a b => rankLeB a b = true) (insertC x l) := by
  cases hxr : x.currentRank with
  | nan => rw [hxr] at hx; simp [JsInt.isVal] at hx
  | val p =>
    intro l
    induction l with
    | nil =>
      intro _ _
      simp [insertC]
    | cons y ys ih =>
      intro hall hp
      have hyv := hall y (List.mem_cons_self y ys)
      cases hyr : y.currentRank with
      | nan => rw [hyr] at hyv; simp [JsInt.isVal] at hyv
      | val q =>
        rw [List.pairwise_cons] at hp
        by_cases h : cmpJs y.currentRank x.currentRank < 0
        · simp only [insertC, if_pos h]
          rw [List.pairwise_cons]
          constructor
          · intro z hz
            rcases (mem_insertC x z ys).mp hz with hzx | hzys
            · subst hzx
              have hqp : q - p < 0 := by
                have h2 := h; rw [hyr, hxr] at h2; simpa [cmpJs] using h2
              rw [rankLeB_val hyr hxr, decide_eq_true_eq]
              omega
            · exact hp.1 z hzys
          · exact ih (fun c hc => hall c (List.mem_cons_of_mem y hc)) hp.2
        · simp only [insertC, if_neg h]
          have hpq : p ≤ q := by
            rw [hyr, hxr] at h; simp only [cmpJs] at h; omega
          rw [List.pairwise_cons]
          constructor
          · intro z hz
            rcases List.mem_cons.mp hz with hzy | hzys
            · subst hzy
              rw [rankLeB_val hxr hyr, decide_eq_true_eq]
              omega
            · have hzv := hall z (List.mem_cons_of_mem y hzys)
              cases hzr : z.currentRank with
              | nan => rw [hzr] at hzv; simp [JsInt.isVal] at hzv
              | val m =>
                have hqm : q ≤ m := by
                  have h3 := hp.1 z hzys
                  rw [rankLeB_val hyr hzr, decide_eq_true_eq] at h3
                  exact h3
                rw [rankLeB_val hxr hzr, decide_eq_true_eq]
                omega
          · exact List.pairwise_cons.mpr hp

theorem mem_sortByRank (z : Contestant) :
    ∀ l : List Contestant, (z ∈ sortByRank l ↔ z ∈ l)
  | [] => by simp [sortByRank]
  | x :: xs => by
    simp only [sortByRank, mem_insertC x z (sortByRank xs), mem_sortByRank z xs,
      List.mem_cons]

theorem sortByRank_pairwise :
    ∀ l : List Contestant, (∀ c ∈ l, c.currentRank.isVal = true) →
      List.Pairwise (fun a b => rankLeB a b = true) (sortByRank l)
  | [] => by intro _; simp [sortByRank]
  | x :: xs => by
    intro hall
    have hx := hall x (List.mem_cons_self x xs)
    have hrest : ∀ c ∈ sortByRank xs, c.currentRank.isVal = true := by
      intro c hc
      exact hall c (List.mem_cons_of_mem x ((mem_sortByRank c xs).mp hc))
    exact insertC_pairwise x hx (sortByRank xs) hrest
      (sortByRank_pairwise xs (fun c hc => hall c (List.mem_cons_of_mem x hc)))

theorem filterRank_insertC_of_ne (x : Contestant) (r : Int)
    (hx : x.currentRank ≠ JsInt.val r) :
    ∀ l : List Contestant, filterRank r (insertC x l) = filterRank r l
  | [] => by simp [filterRank, insertC, List.filter_cons, hx]
  | y :: ys => by
    have ihy := filterRank_insertC_of_ne x r hx ys
    simp only [filterRank] at ihy ⊢
    by_cases h : cmpJs y.currentRank x.currentRank < 0
    · simp only [insertC, if_pos h, List.filter_cons]
      rw [ihy]
    · simp only [insertC, if_neg h, List.filter_cons]
      simp [hx]

theorem filterRank_insertC_of_eq (x : Contestant) (r : Int)
    (hx : x.currentRank = JsInt.val r) :
    ∀ l : List Contestant, filterRank r (insertC x l) = x :: filterRank r l
  | [] => by simp [filterRank, insertC, List.filter_cons, hx]
  | y :: ys => by
    have ihy := filterRank_insertC_of_eq x r hx ys
    simp only [filterRank] at ihy ⊢
    by_cases h : cmpJs y.currentRank x.currentRank < 0
    · have hy : y.currentRank ≠ JsInt.val r := by
        intro hcontra
        rw [hcontra, hx] at h
        simp only [cmpJs] at h
        omega
      simp only [insertC, if_pos h, List.filter_cons]
      rw [ihy]
      simp [hy]
    · simp only [insertC, if_neg h, List.filter_cons]
      simp [hx]

theorem filterRank_sortByRank (r : Int) :
    ∀ l : List Contestant, filterRank r (sortByRank l) = filterRank r l
  | [] => rfl
  | x :: xs => by
    by_cases hx : x.currentRank = JsInt.val r
    · simp only [sortByRank, filterRank_insertC_of_eq x r hx,
        filterRank_sortByRank r xs]
      simp [filterRank, List.filter_cons, hx]
    · simp only [sortByRank, filterRank_insertC_of_ne x r hx,
        filterRank_sortByRank r xs]
      simp [filterRank, List.filter_cons, hx]

theorem jsSet_keysOf (k v : String) :
    ∀ row : Row, k ∉ keysOf row → keysOf (jsSet row k v) = keysOf row ++ [k]
  | [] => by simp [jsSet, keysOf]
  | (k1, v1) :: rest => by
    intro h
    have hne : ¬ (k1 = k) := by
      intro e
      exact h (by simp [keysOf, e])
    have hrest : k ∉ keysOf rest := by
      intro e
      apply h
      have e2 : k ∈ List.map Prod.fst rest := by simpa [keysOf] using e
      simp only [keysOf, List.map_cons, List.mem_cons]
      exact Or.inr e2
    simp only [jsSet, if_neg hne]
    have hcons : keysOf ((k1, v1) :: jsSet rest k v) = k1 :: keysOf (jsSet rest k v) := rfl
    rw [hcons, jsSet_keysOf k v rest hrest]
    rfl

theorem buildRowAux_keysOf :
    ∀ (headers vs : List String) (row : Row),
      (keysOf row ++ headers).Nodup →
      keysOf (buildRowAux row headers vs) = keysOf row ++ headers := by
  intro headers
  induction headers with
  | nil => intro vs row _; simp [buildRowAux]
  | cons h hs ih =>
    intro vs row hnodup
    have hdisj := (List.nodup_append.mp hnodup).2.2
    have hnotmem : h ∉ keysOf row := fun hmem =>
      hdisj hmem (List.mem_cons_self h hs)
    have hkeys := jsSet_keysOf h (vs.headD "") row hnotmem
    have hassoc : keysOf row ++ h :: hs = (keysOf row ++ [h]) ++ hs := by simp
    have hnodup2 : (keysOf (jsSet row h (vs.headD "")) ++ hs).Nodup := by
      rw [hkeys]
      rw [hassoc] at hnodup
      exact hnodup
    simp only [buildRowAux]
    rw [ih vs.tail (jsSet row h (vs.headD "")) hnodup2, hkeys]
    simp

theorem buildRow_length (headers vs : List String) (h : headers.Nodup) :
    (buildRow headers vs).length = headers.length := by
  have h1 : keysOf (buildRow headers vs) = headers :=
    buildRowAux_keysOf headers vs [] (by simpa [keysOf] using h)
  calc (buildRow headers vs).length
      = (keysOf (buildRow headers vs)).length := by simp [keysOf]
    _ = headers.length := by rw [h1]

/-- C1, amended: a failing refresh (the fetch promise rejects or a step
throws, reaching the `catch` branch) leaves the owned contestant collection
unchanged — so `current()` afterwards returns the same sequence by value as
before the call — but `refresh()` returns the empty sequence, not the
previous collection. -/
theorem refresh_failure_preserves_state (prev : List Contestant) :
    fetchLeaderboardData prev (Except.error ()) = (prev, []) := rfl

/-- C1 counterexample: after a successful load of one contestant, a failing
refresh returns the empty sequence, which differs by value from the previous
(owned) collection, contradicting the claim that the previous collection is
returned. -/
theorem refresh_failure_cex :
    (fetchLeaderboardData
        [{ codename := "A", currentRank := JsInt.val 1,
           previousRank := JsInt.val 1, shamed := false }]
        (Except.error ())).2 ≠
      [{ codename := "A", currentRank := JsInt.val 1,
         previousRank := JsInt.val 1, shamed := false }] := by decide

/-- C2, amended: the config CSV goes through `parseCSV`, which consumes the
first row as the header line; only the rows after the first are treated
positionally as key/value pairs (first two values of the row object, in
original column order), with unrecognized keys ignored.  For the sheet
`deadline,2025-12-31 / current_week,7 / unknown,x` the refresh therefore
yields `currentWeek = 7` and leaves `deadline` unchanged. -/
theorem config_first_row_consumed (cfg : RuntimeConfig) :
    fetchConfigData cfg (Except.ok "deadline,2025-12-31\ncurrent_week,7\nunknown,x") =
      ({ deadline := cfg.deadline, currentWeek := some (JsInt.val 7) },
       { deadline := cfg.deadline, currentWeek := some (JsInt.val 7) }) := rfl

/-- C2 counterexample: on the claimed config sheet, starting from the initial
(null) configuration, the refresh produces `deadline = none` (the
`deadline,2025-12-31` row was eaten as the CSV header), not the claimed
`{deadline := "2025-12-31", currentWeek := 7}`. -/
theorem config_first_row_cex :
    (fetchConfigData initialConfig
        (Except.ok "deadline,2025-12-31\ncurrent_week,7\nunknown,x")).1 =
      { deadline := none, currentWeek := some (JsInt.val 7) } ∧
    ({ deadline := none, currentWeek := some (JsInt.val 7) } : RuntimeConfig) ≠
      { deadline := some "2025-12-31", currentWeek := some (JsInt.val 7) } :=
  ⟨by decide, by decide⟩

/-- C3, amended: a config record whose key is `current_week` and whose value
does not parse as a base-10 integer OVERWRITES `currentWeek` with NaN
(`CONFIG.currentWeek = parseInt(value, 10)` assigns unconditionally); it does
not leave the previous value.  A `deadline` key always overwrites `deadline`
with the raw value string, as the claim says. -/
theorem config_week_nan_overwrites (cfg : RuntimeConfig) (row : Row)
    (hk : configKey row = "current_week")
    (hv : parseIntJs (configValue row) = JsInt.nan) :
    (applyConfigRow cfg row).currentWeek = some JsInt.nan ∧
    ∀ row2 : Row, configKey row2 = "deadline" →
      (applyConfigRow cfg row2).deadline = some (configValue row2) := by
  constructor
  · simp [applyConfigRow, hk, hv]
  · intro row2 hk2
    simp [applyConfigRow, hk2]

/-- C3 witness: a concrete `current_week,x` record satisfies both hypotheses
and is overwritten with NaN. -/
theorem config_week_nan_overwrites_witness :
    configKey [("k", "current_week"), ("v", "x")] = "current_week" ∧
    parseIntJs (configValue [("k", "current_week"), ("v", "x")]) = JsInt.nan ∧
    (applyConfigRow initialConfig [("k", "current_week"), ("v", "x")]).currentWeek
        = some JsInt.nan :=
  ⟨by decide, by decide,
    (config_week_nan_overwrites initialConfig [("k", "current_week"), ("v", "x")]
      (by decide) (by decide)).1⟩

/-- C3 counterexample: with `currentWeek` previously 5, refreshing against a
config sheet whose second row is `current_week,x` sets `currentWeek` to NaN
instead of leaving it at 5. -/
theorem config_week_nan_cex :
    (fetchConfigData { deadline := none, currentWeek := some (JsInt.val 5) }
        (Except.ok "key,value\ncurrent_week,x")).1.currentWeek = some JsInt.nan ∧
    some JsInt.nan ≠ some (JsInt.val 5) := ⟨by decide, by decide⟩

/-- C4, amended: the header line is split on EVERY comma (quotes do not
protect the header line; the literal quote characters are then stripped), so
`a,"b,c",d` yields the FOUR headers `a,b,c,d`, not three.  The quote-toggle
scan applies only to data lines: `X,"Y,Z",W` yields the three field values
`X`, `Y,Z`, `W` (the comma inside quotes does not split the field), and the
positional zip pads the fourth header with the empty string.  The first two
values of the resulting record are `X` and `Y,Z`. -/
theorem parse_quoted_header_amended :
    parseCSV "a,\"b,c\",d\nX,\"Y,Z\",W" =
      [[("a", "X"), ("b", "Y,Z"), ("c", "W"), ("d", "")]] ∧
    splitCSVLine ("X,\"Y,Z\",W").toList [] false = ["X", "Y,Z", "W"] :=
  ⟨by decide, by decide⟩

/-- C4 counterexample: the header line of `a,"b,c",d\nX,"Y,Z",W` produces four
header tokens (`a`, `b`, `c`, `d`), not the claimed exactly three — the quoted
`"b,c"` header does NOT stay one token. -/
theorem parse_quoted_header_cex :
    parseHeaders ((splitChar '\n'
        (trimChars ("a,\"b,c\",d\nX,\"Y,Z\",W").toList)).headD []) =
      ["a", "b", "c", "d"] ∧
    (["a", "b", "c", "d"] : List String).length ≠ 3 := ⟨by decide, by decide⟩

/-- C5, amended: the cache-busting query parameter is computed ONCE, from
`Date.now()` at script-load time (`CACHE_BUST` is a module-level constant),
so every fetch uses the same address regardless of when it is issued; the
parameter varies only with the page-load time. -/
theorem cache_bust_load_time (t0 t1 t2 : Nat) :
    leaderboardFetchAddress t0 t1 = leaderboardFetchAddress t0 t2 ∧
    leaderboardFetchAddress t0 t1 =
      CORS_PROXY ++ encodeURIComponent (SHEETS_BASE_URL ++ "&gid=0" ++ CACHE_BUST t0) ∧
    CACHE_BUST t0 = "&_=" ++ toString t0 := ⟨rfl, rfl, rfl⟩

set_option maxRecDepth 4000 in
/-- C5 counterexample: two fetches issued at different times (call times 1
and 2) in the same page load use the SAME address, contradicting the claim
that their addresses differ in the cache-busting parameter; a different
page-load time is what changes the address. -/
theorem cache_bust_cex :
    leaderboardFetchAddress 1000 1 = leaderboardFetchAddress 1000 2 ∧
    leaderboardFetchAddress 1000 5 ≠ leaderboardFetchAddress 2000 5 :=
  ⟨rfl, by decide⟩

/-- C6, amended: after a successful refresh whose kept records all have a
Current Rank that parses to an integer, the owned collection is sorted
non-decreasing by `currentRank`, and contestants with any given rank appear
in their original record order (stability, stated as: filtering the output
by a rank value gives the same sequence as filtering the pre-sort
projection).  The hypothesis is needed: an unparseable Current Rank yields a
NaN rank, for which JavaScript order comparisons are false (see the
counterexample). -/
theorem refresh_sorted_stable (state : List Contestant) (csvText : String) (r : Int)
    (hall : ∀ c ∈ fetchLeaderboardProject (parseCSV csvText), c.currentRank.isVal = true) :
    List.Pairwise (fun a b => rankLeB a b = true)
      ((fetchLeaderboardData state (Except.ok csvText)).1) ∧
    filterRank r ((fetchLeaderboardData state (Except.ok csvText)).1) =
      filterRank r (fetchLeaderboardProject (parseCSV csvText)) := by
  have h1 : (fetchLeaderboardData state (Except.ok csvText)).1 =
      sortByRank (fetchLeaderboardProject (parseCSV csvText)) := rfl
  rw [h1]
  exact ⟨sortByRank_pairwise _ hall, filterRank_sortByRank r _⟩

/-- C6 witness: a concrete successful refresh (three contestants, two tied at
rank 1) satisfies the all-ranks-parse hypothesis; its output is sorted and
its rank-1 contestants keep their original order. -/
theorem refresh_sorted_stable_witness :
    List.Pairwise (fun a b => rankLeB a b = true)
      ((fetchLeaderboardData []
        (Except.ok "Codename,Current Rank,Previous Rank,Shamed\nB,2,,\nA,1,,TRUE\nC,1,,")).1) ∧
    filterRank 1 ((fetchLeaderboardData []
        (Except.ok "Codename,Current Rank,Previous Rank,Shamed\nB,2,,\nA,1,,TRUE\nC,1,,")).1) =
      filterRank 1 (fetchLeaderboardProject
        (parseCSV "Codename,Current Rank,Previous Rank,Shamed\nB,2,,\nA,1,,TRUE\nC,1,,")) :=
  refresh_sorted_stable []
    "Codename,Current Rank,Previous Rank,Shamed\nB,2,,\nA,1,,TRUE\nC,1,," 1 (by decide)

/-- C6 counterexample: a successful refresh of a sheet whose first record has
the non-empty but unparseable Current Rank `x` produces a collection that is
NOT sorted non-decreasing by `currentRank` (the NaN-ranked contestant sits
before a rank-1 contestant, and no order comparison with NaN holds). -/
theorem refresh_sorted_nan_cex :
    ¬ List.Pairwise (fun a b => rankLeB a b = true)
      ((fetchLeaderboardData []
        (Except.ok "Codename,Current Rank,Previous Rank,Shamed\nA,x,,\nB,1,,")).1) := by
  decide

/-- C7, amended: a record with empty (or absent) `Codename` or `Current Rank`
contributes nothing to the projection, and a kept record's `previousRank`
falls back to the parsed `Current Rank` not only when `Previous Rank` is
absent or non-numeric (parses to NaN) but ALSO when it parses to 0 — the
fallback `parseInt(prev) || parseInt(cur)` triggers on every falsy parse
result, 0 included; only a nonzero integer parse of `Previous Rank` is kept
as `previousRank`. -/
theorem projection_filter_fallback (row : Row) :
    ((getStr row "Codename" = "" ∨ getStr row "Current Rank" = "") →
      ∀ pre post : List Row,
        fetchLeaderboardProject (pre ++ row :: post) =
          fetchLeaderboardProject (pre ++ post)) ∧
    (keepRow row = true →
      ∀ pre post : List Row,
        fetchLeaderboardProject (pre ++ row :: post) =
          fetchLeaderboardProject pre ++ projectRow row :: fetchLeaderboardProject post) ∧
    ((projectRow row).currentRank = parseIntJs (getStr row "Current Rank")) ∧
    ((parseIntJs (getStr row "Previous Rank") = JsInt.nan ∨
        parseIntJs (getStr row "Previous Rank") = JsInt.val 0) →
      (projectRow row).previousRank = parseIntJs (getStr row "Current Rank")) ∧
    (∀ n : Int, n ≠ 0 → parseIntJs (getStr row "Previous Rank") = JsInt.val n →
      (projectRow row).previousRank = JsInt.val n) := by
  refine ⟨?_, ?_, rfl, ?_, ?_⟩
  · intro hbad pre post
    have he : ("" : String).isEmpty = true := rfl
    have hkeep : keepRow row = false := by
      rcases hbad with h | h <;> simp [keepRow, h, he]
    simp [fetchLeaderboardProject, List.filter_append, List.filter_cons, hkeep]
  · intro hkeep pre post
    simp [fetchLeaderboardProject, List.filter_append, List.filter_cons, hkeep]
  · intro hprev
    rcases hprev with h | h <;> simp [projectRow, jsOrInt, h]
  · intro n hn h
    simp [projectRow, jsOrInt, h, hn]

/-- C7 witness: one excluded record (empty Codename) and one kept record
whose `Previous Rank` parses to the nonzero 7. -/
theorem projection_filter_fallback_witness :
    fetchLeaderboardProject [[("Codename", ""), ("Current Rank", "4")]] =
      fetchLeaderboardProject [] ∧
    (projectRow [("Codename", "B"), ("Current Rank", "2"), ("Previous Rank", "7")]).previousRank
      = JsInt.val 7 := by
  constructor
  · exact (projection_filter_fallback [("Codename", ""), ("Current Rank", "4")]).1
      (Or.inl (by decide)) [] []
  · exact (projection_filter_fallback
      [("Codename", "B"), ("Current Rank", "2"), ("Previous Rank", "7")]).2.2.2.2
      7 (by decide) (by decide)

/-- C7 counterexample: a kept record whose `Previous Rank` field is the
numeric string `0` (which parses to the base-10 integer 0) nevertheless gets
`previousRank` equal to the parsed Current Rank 5, not the parsed 0 — the
claim's "parsed as a base-10 integer otherwise" fails at 0. -/
theorem projection_prev_zero_cex :
    parseIntJs "0" = JsInt.val 0 ∧
    fetchLeaderboardProject
        [[("Codename", "A"), ("Current Rank", "5"), ("Previous Rank", "0"), ("Shamed", "")]] =
      [{ codename := "A", currentRank := JsInt.val 5,
         previousRank := JsInt.val 5, shamed := false }] ∧
    JsInt.val (5 : Int) ≠ JsInt.val 0 := ⟨by decide, by decide, by decide⟩

/-- C8, confirmed: for input that splits (after trimming) into `n ≥ 2` lines
and whose processed header tokens are pairwise distinct (the formalization
of "well-formed" — with duplicate headers a JavaScript object collapses
repeated keys), `parseCSV` returns exactly `n - 1` records, each with exactly
as many keys as the header line has header tokens; for input splitting into
fewer than 2 lines (including `""` and a header-only line) it returns the
empty sequence. -/
theorem parse_returns_shape (s : String) :
    ((splitChar '\n' (trimChars s.toList)).length < 2 → parseCSV s = []) ∧
    (2 ≤ (splitChar '\n' (trimChars s.toList)).length →
      (parseHeaders ((splitChar '\n' (trimChars s.toList)).headD [])).Nodup →
      (parseCSV s).length = (splitChar '\n' (trimChars s.toList)).length - 1 ∧
      ∀ row ∈ parseCSV s,
        row.length =
          (parseHeaders ((splitChar '\n' (trimChars s.toList)).headD [])).length) := by
  constructor
  · intro h
    simp only [parseCSV, if_pos h]
  · intro h2 hnodup
    have hcond : ¬ ((splitChar '\n' (trimChars s.toList)).length < 2) := by omega
    constructor
    · simp only [parseCSV, if_neg hcond]
      simp
    · intro row hrow
      simp only [parseCSV, if_neg hcond, List.mem_map] at hrow
      obtain ⟨line, _, rfl⟩ := hrow
      exact buildRow_length _ _ hnodup

/-- C8 witness: the empty input yields no records, and a 3-line input with
distinct headers yields 2 records whose first record has 2 keys. -/
theorem parse_returns_shape_witness :
    parseCSV "" = [] ∧
    (parseCSV "a,b\nc,d\ne,f").length = 2 ∧
    ((parseCSV "a,b\nc,d\ne,f").headD []).length = 2 := by
  refine ⟨(parse_returns_shape "").1 (by decide), ?_, ?_⟩
  · have h := ((parse_returns_shape "a,b\nc,d\ne,f").2 (by decide) (by decide)).1
    have e : (splitChar '\n' (trimChars ("a,b\nc,d\ne,f").toList)).length = 3 := by decide
    rw [e] at h
    exact h
  · have h := ((parse_returns_shape "a,b\nc,d\ne,f").2 (by decide) (by decide)).2
      ((parseCSV "a,b\nc,d\ne,f").headD []) (by decide)
    have e2 : (parseHeaders ((splitChar '\n'
        (trimChars ("a,b\nc,d\ne,f").toList)).headD [])).length = 2 := by decide
    rw [e2] at h
    exact h

/-- C9, confirmed: `getMovement` is a total pure function of the integer rank
pair; with `diff = previousRank - currentRank`, a positive diff yields the
up arrow with the diff and the up classification (the source's CSS class
`movement-up` is the spec's direction "up", and likewise for the others), a
negative diff yields the down arrow with `|diff|`, and zero yields the en
dash; the three concrete examples of the claim evaluate as stated. -/
theorem movement_spec (c p : Int) :
    ((p - c > 0) →
      getMovement c p = { symbol := "↑" ++ toString (p - c), cls := "movement-up" }) ∧
    ((p - c < 0) →
      getMovement c p = { symbol := "↓" ++ toString (p - c).natAbs, cls := "movement-down" }) ∧
    ((p - c = 0) → getMovement c p = { symbol := "–", cls := "movement-same" }) ∧
    getMovement 1 3 = { symbol := "↑2", cls := "movement-up" } ∧
    getMovement 5 2 = { symbol := "↓3", cls := "movement-down" } ∧
    getMovement 4 4 = { symbol := "–", cls := "movement-same" } := by
  refine ⟨?_, ?_, ?_, by decide, by decide, by decide⟩
  · intro h
    simp [getMovement, h]
  · intro h
    have h2 : ¬ (p - c > 0) := by omega
    simp [getMovement, h, h2]
  · intro h
    simp [getMovement, h]

/-- C9 witness: the theorem applied at the concrete pair (1, 3). -/
theorem movement_spec_witness :
    ((3 : Int) - 1 > 0) ∧
    getMovement 1 3 = { symbol := "↑" ++ toString ((3 : Int) - 1), cls := "movement-up" } :=
  ⟨by decide, (movement_spec 1 3).1 (by decide)⟩

/-- C10, confirmed: a parsed record whose Current Rank field is non-empty but
does not parse as a base-10 integer (and which passes the rest of the filter,
i.e. has a non-empty Codename) is NOT excluded - the filter tests only field
presence - and the produced contestant's `currentRank` is NaN, not a
well-defined integer. -/
theorem rank_nan_kept (rows : List Row) (row : Row) (hmem : row ∈ rows)
    (hcode : getStr row "Codename" ≠ "") (hcur : getStr row "Current Rank" ≠ "")
    (hnan : parseIntJs (getStr row "Current Rank") = JsInt.nan) :
    projectRow row ∈ fetchLeaderboardProject rows ∧
    (projectRow row).currentRank = JsInt.nan ∧
    (projectRow row).currentRank.isVal = false := by
  have hkeep : keepRow row = true := by
    have h1 : (getStr row "Codename").isEmpty = false := by
      cases hh : (getStr row "Codename").isEmpty
      · rfl
      · exact absurd ((String.isEmpty_iff _).mp hh) hcode
    have h2 : (getStr row "Current Rank").isEmpty = false := by
      cases hh : (getStr row "Current Rank").isEmpty
      · rfl
      · exact absurd ((String.isEmpty_iff _).mp hh) hcur
    simp [keepRow, h1, h2]
  refine ⟨?_, ?_, ?_⟩
  · simp only [fetchLeaderboardProject, List.mem_map]
    exact ⟨row, List.mem_filter.mpr ⟨hmem, hkeep⟩, rfl⟩
  · simp [projectRow, hnan]
  · simp [projectRow, hnan, JsInt.isVal]

/-- C10 witness: the record `Codename = A, Current Rank = abc` is kept and
projects to a NaN `currentRank`. -/
theorem rank_nan_kept_witness :
    projectRow [("Codename", "A"), ("Current Rank", "abc")] ∈
      fetchLeaderboardProject [[("Codename", "A"), ("Current Rank", "abc")]] ∧
    (projectRow [("Codename", "A"), ("Current Rank", "abc")]).currentRank = JsInt.nan := by
  have h := rank_nan_kept [[("Codename", "A"), ("Current Rank", "abc")]]
    [("Codename", "A"), ("Current Rank", "abc")] (by decide) (by decide) (by decide)
    (by decide)
  exact ⟨h.1, h.2.1⟩

end BiggestLoser
